import Mathlib

/-!
Verification of the print-layout geometry and pagination engine of the
labelmaker repository (src/web/src/app/print/page.tsx).  The source's real
arithmetic is modelled exactly over the rationals; counts, page indices and
label indices are natural numbers.
-/

namespace LabelMaker

/-- Usable A4 width in cm: 21 minus a 2.1 cm margin on each side (16.8). -/
def usableWidthCm : ℚ := 21 - (21 / 10) * 2

/-- Usable A4 height in cm: 29.7 minus a 2.97 cm margin top and bottom (23.76). -/
def usableHeightCm : ℚ := 297 / 10 - (297 / 100) * 2

/-- Minimum inter-label spacing (1 mm), the source constant `minSpacing = 0.1`. -/
def minSpacing : ℚ := 1 / 10

/-- One step of the source loop
`for (labels = 2; labels <= cap; labels++) { if (total <= usable) maxLabels = labels; else break; }`.
`acc` is the current `maxLabels`; because the loop breaks at the first failing
candidate, the candidate tested is always `acc + 1`, whose total width is
`(acc + 1) * L + acc * s`.  `fuel` is the number of remaining candidates. -/
def capSearchGo (U L s : ℚ) : ℕ → ℕ → ℕ
  | 0, acc => acc
  | fuel + 1, acc =>
    if ((acc : ℚ) + 1) * L + (acc : ℚ) * s ≤ U then
      capSearchGo U L s fuel (acc + 1)
    else acc

/-- The per-axis capacity search of the source: return 1 when the label does
not fit at all (`labelLength >= usableLength`), otherwise run the bounded
upward search from `maxLabels = 1` over candidates `2..cap`. -/
def capacityAlongAxis (U L s : ℚ) (cap : ℕ) : ℕ :=
  if U ≤ L then 1 else capSearchGo U L s (cap - 1) 1

/-- `calculateMaxLabelsPerRow` as in the print layout (loop bound 50). -/
def calculateMaxLabelsPerRow (labelWidth : ℚ) : ℕ :=
  capacityAlongAxis usableWidthCm labelWidth minSpacing 50

/-- `calculateMaxLabelsPerRow` as in the on-screen preview and the keyboard
handler (loop bound 10). -/
def calculateMaxLabelsPerRowPreview (labelWidth : ℚ) : ℕ :=
  capacityAlongAxis usableWidthCm labelWidth minSpacing 10

/-- `calculateMaxLabelsPerCol` (loop bound 20, identical in preview and print). -/
def calculateMaxLabelsPerCol (labelHeight : ℚ) : ℕ :=
  capacityAlongAxis usableHeightCm labelHeight minSpacing 20

/-- The closed form stated by the spec for the per-axis capacity:
`floor((usableLength + minSpacing) / (labelLength + minSpacing))` clamped
to at least 1.  (Written from the spec, to be compared with the search.) -/
def closedForm (U L s : ℚ) : ℕ :=
  max (⌊(U + s) / (L + s)⌋.toNat) 1

lemma capSearchGo_zero (U L s : ℚ) (acc : ℕ) : capSearchGo U L s 0 acc = acc := rfl

lemma capSearchGo_succ (U L s : ℚ) (fuel acc : ℕ) :
    capSearchGo U L s (fuel + 1) acc =
      if ((acc : ℚ) + 1) * L + (acc : ℚ) * s ≤ U then
        capSearchGo U L s fuel (acc + 1)
      else acc := rfl

lemma le_capSearchGo (U L s : ℚ) : ∀ fuel acc, acc ≤ capSearchGo U L s fuel acc := by
  intro fuel
  induction fuel with
  | zero => intro acc; exact Nat.le_refl acc
  | succ n ih =>
    intro acc
    rw [capSearchGo_succ]
    split
    · exact Nat.le_trans (Nat.le_succ acc) (ih (acc + 1))
    · exact Nat.le_refl acc

lemma capSearchGo_le (U L s : ℚ) : ∀ fuel acc, capSearchGo U L s fuel acc ≤ acc + fuel := by
  intro fuel
  induction fuel with
  | zero => intro acc; exact Nat.le_refl acc
  | succ n ih =>
    intro acc
    rw [capSearchGo_succ]
    split
    · exact Nat.le_trans (ih (acc + 1)) (by omega)
    · omega

lemma capSearchGo_fits (U L s : ℚ) :
    ∀ fuel acc, capSearchGo U L s fuel acc = acc ∨
      (capSearchGo U L s fuel acc : ℚ) * L + ((capSearchGo U L s fuel acc : ℚ) - 1) * s ≤ U := by
  intro fuel
  induction fuel with
  | zero => intro acc; exact Or.inl rfl
  | succ n ih =>
    intro acc
    rw [capSearchGo_succ]
    split
    · rcases ih (acc + 1) with h | h
      · refine Or.inr ?_
        rw [h]
        push_cast
        linarith
      · exact Or.inr h
    · exact Or.inl rfl

/-- The loop condition for candidate `n ≥ 1` is equivalent to `n` being below
the closed-form floor. -/
lemma cond_iff_le_floor (U L s : ℚ) (hLs : 0 < L + s) (n : ℕ) :
    ((n : ℚ) + 1) * L + (n : ℚ) * s ≤ U ↔ ((n : ℤ) + 1 ≤ ⌊(U + s) / (L + s)⌋) := by
  rw [Int.le_floor, le_div_iff₀ hLs]
  push_cast
  constructor <;> intro h <;> nlinarith

lemma capSearchGo_eq_min (U L s : ℚ) (hLs : 0 < L + s) :
    ∀ fuel (acc : ℕ), 1 ≤ acc → (acc : ℤ) ≤ ⌊(U + s) / (L + s)⌋ →
      capSearchGo U L s fuel acc = min (⌊(U + s) / (L + s)⌋.toNat) (acc + fuel) := by
  intro fuel
  induction fuel with
  | zero =>
    intro acc h1 hacc
    have hnn : (0 : ℤ) ≤ ⌊(U + s) / (L + s)⌋ := le_trans (by exact_mod_cast Nat.zero_le acc) hacc
    have : acc ≤ ⌊(U + s) / (L + s)⌋.toNat := by omega
    rw [capSearchGo_zero]
    omega
  | succ n ih =>
    intro acc h1 hacc
    rw [capSearchGo_succ]
    by_cases hc : ((acc : ℚ) + 1) * L + (acc : ℚ) * s ≤ U
    · rw [if_pos hc]
      have hnext : ((acc : ℤ)) + 1 ≤ ⌊(U + s) / (L + s)⌋ := (cond_iff_le_floor U L s hLs acc).mp hc
      have := ih (acc + 1) (by omega) (by push_cast; omega)
      rw [this]
      omega
    · rw [if_neg hc]
      have hfail : ¬ ((acc : ℤ) + 1 ≤ ⌊(U + s) / (L + s)⌋) :=
        fun h => hc ((cond_iff_le_floor U L s hLs acc).mpr h)
      have : ⌊(U + s) / (L + s)⌋ = (acc : ℤ) := by omega
      rw [this]
      omega

/-- The bounded upward search equals the spec's closed form clamped to the
loop cap, for positive usable length, positive label length and nonnegative
minimum spacing. -/
lemma capacityAlongAxis_eq_closedForm (U L s : ℚ) (cap : ℕ)
    (hU : 0 < U) (hL : 0 < L) (hs : 0 ≤ s) (hcap : 1 ≤ cap) :
    capacityAlongAxis U L s cap = min (closedForm U L s) cap := by
  have hLs : 0 < L + s := by linarith
  rw [capacityAlongAxis]
  by_cases hUL : U ≤ L
  · rw [if_pos hUL]
    have hdiv : (U + s) / (L + s) ≤ 1 := (div_le_one hLs).mpr (by linarith)
    have hf : ⌊(U + s) / (L + s)⌋ ≤ 1 := by
      have := Int.floor_le_floor hdiv
      simpa using this
    rw [closedForm]
    omega
  · rw [if_neg hUL]
    push_neg at hUL
    have h1 : ((1 : ℕ) : ℤ) ≤ ⌊(U + s) / (L + s)⌋ := by
      have := (cond_iff_le_floor U L s hLs 0).mp (by push_cast; linarith)
      omega
    rw [capSearchGo_eq_min U L s hLs (cap - 1) 1 (le_refl 1) (by exact_mod_cast h1)]
    rw [closedForm]
    omega

/-- If every candidate up to the cap fits, the search saturates at the cap;
used for nonpositive label widths where the fit condition is vacuous. -/
lemma capSearchGo_all (U L s : ℚ) :
    ∀ fuel acc, (∀ n : ℕ, n < acc + fuel → ((n : ℚ) + 1) * L + (n : ℚ) * s ≤ U) →
      capSearchGo U L s fuel acc = acc + fuel := by
  intro fuel
  induction fuel with
  | zero => intro acc _; rfl
  | succ n ih =>
    intro acc h
    rw [capSearchGo_succ, if_pos (h acc (by omega))]
    have := ih (acc + 1) (fun m hm => h m (by omega))
    omega

/-- The print layout's per-row search returns the full cap 50 for any
nonpositive label width. -/
lemma calculateMaxLabelsPerRow_of_nonpos (w : ℚ) (hw : w ≤ 0) :
    calculateMaxLabelsPerRow w = 50 := by
  rw [calculateMaxLabelsPerRow, capacityAlongAxis, if_neg (by rw [usableWidthCm]; norm_num; linarith)]
  rw [capSearchGo_all]
  intro n hn
  have hn' : (n : ℚ) ≤ 49 := by exact_mod_cast Nat.le_of_lt_succ hn
  have h1 : ((n : ℚ) + 1) * w ≤ 0 := mul_nonpos_of_nonneg_of_nonpos (by positivity) hw
  rw [usableWidthCm, minSpacing]
  nlinarith

lemma one_le_capacityAlongAxis (U L s : ℚ) (cap : ℕ) : 1 ≤ capacityAlongAxis U L s cap := by
  rw [capacityAlongAxis]
  split
  · exact le_refl 1
  · exact le_capSearchGo U L s (cap - 1) 1

lemma usableWidthCm_pos : (0 : ℚ) < usableWidthCm := by rw [usableWidthCm]; norm_num

lemma usableHeightCm_pos : (0 : ℚ) < usableHeightCm := by rw [usableHeightCm]; norm_num

lemma minSpacing_nonneg : (0 : ℚ) ≤ minSpacing := by rw [minSpacing]; norm_num

lemma closedForm_width_six : closedForm usableWidthCm 6 minSpacing = 2 := by
  have h : ⌊(usableWidthCm + minSpacing) / (6 + minSpacing)⌋ = 2 := by
    rw [Int.floor_eq_iff]
    rw [usableWidthCm, minSpacing]
    norm_num
  rw [closedForm, h]
  rfl

lemma row_six : calculateMaxLabelsPerRow 6 = 2 := by
  rw [calculateMaxLabelsPerRow,
    capacityAlongAxis_eq_closedForm _ _ _ _ usableWidthCm_pos (by norm_num) minSpacing_nonneg
      (by norm_num),
    closedForm_width_six]
  decide

lemma rowPreview_six : calculateMaxLabelsPerRowPreview 6 = 2 := by
  rw [calculateMaxLabelsPerRowPreview,
    capacityAlongAxis_eq_closedForm _ _ _ _ usableWidthCm_pos (by norm_num) minSpacing_nonneg
      (by norm_num),
    closedForm_width_six]
  decide

lemma closedForm_width_one : closedForm usableWidthCm 1 minSpacing = 15 := by
  have h : ⌊(usableWidthCm + minSpacing) / (1 + minSpacing)⌋ = 15 := by
    rw [Int.floor_eq_iff]
    rw [usableWidthCm, minSpacing]
    norm_num
  rw [closedForm, h]
  rfl

lemma row_one : calculateMaxLabelsPerRow 1 = 15 := by
  rw [calculateMaxLabelsPerRow,
    capacityAlongAxis_eq_closedForm _ _ _ _ usableWidthCm_pos (by norm_num) minSpacing_nonneg
      (by norm_num),
    closedForm_width_one]
  decide

lemma rowPreview_one : calculateMaxLabelsPerRowPreview 1 = 10 := by
  rw [calculateMaxLabelsPerRowPreview,
    capacityAlongAxis_eq_closedForm _ _ _ _ usableWidthCm_pos (by norm_num) minSpacing_nonneg
      (by norm_num),
    closedForm_width_one]
  decide

lemma closedForm_width_four : closedForm usableWidthCm 4 minSpacing = 4 := by
  have h : ⌊(usableWidthCm + minSpacing) / (4 + minSpacing)⌋ = 4 := by
    rw [Int.floor_eq_iff]
    rw [usableWidthCm, minSpacing]
    norm_num
  rw [closedForm, h]
  rfl

lemma rowPreview_four : calculateMaxLabelsPerRowPreview 4 = 4 := by
  rw [calculateMaxLabelsPerRowPreview,
    capacityAlongAxis_eq_closedForm _ _ _ _ usableWidthCm_pos (by norm_num) minSpacing_nonneg
      (by norm_num),
    closedForm_width_four]
  decide

lemma closedForm_height_one : closedForm usableHeightCm 1 minSpacing = 21 := by
  have h : ⌊(usableHeightCm + minSpacing) / (1 + minSpacing)⌋ = 21 := by
    rw [Int.floor_eq_iff]
    rw [usableHeightCm, minSpacing]
    norm_num
  rw [closedForm, h]
  rfl

lemma col_one : calculateMaxLabelsPerCol 1 = 20 := by
  rw [calculateMaxLabelsPerCol,
    capacityAlongAxis_eq_closedForm _ _ _ _ usableHeightCm_pos (by norm_num) minSpacing_nonneg
      (by norm_num),
    closedForm_height_one]
  decide

lemma closedForm_height_four : closedForm usableHeightCm 4 minSpacing = 5 := by
  have h : ⌊(usableHeightCm + minSpacing) / (4 + minSpacing)⌋ = 5 := by
    rw [Int.floor_eq_iff]
    rw [usableHeightCm, minSpacing]
    norm_num
  rw [closedForm, h]
  rfl

lemma col_four : calculateMaxLabelsPerCol 4 = 5 := by
  rw [calculateMaxLabelsPerCol,
    capacityAlongAxis_eq_closedForm _ _ _ _ usableHeightCm_pos (by norm_num) minSpacing_nonneg
      (by norm_num),
    closedForm_height_four]
  decide

lemma closedForm_height_eight_thirds : closedForm usableHeightCm (8 / 3) minSpacing = 8 := by
  have h : ⌊(usableHeightCm + minSpacing) / (8 / 3 + minSpacing)⌋ = 8 := by
    rw [Int.floor_eq_iff]
    rw [usableHeightCm, minSpacing]
    norm_num
  rw [closedForm, h]
  rfl

lemma col_eight_thirds : calculateMaxLabelsPerCol (8 / 3) = 8 := by
  rw [calculateMaxLabelsPerCol,
    capacityAlongAxis_eq_closedForm _ _ _ _ usableHeightCm_pos (by norm_num) minSpacing_nonneg
      (by norm_num),
    closedForm_height_eight_thirds]
  decide

/-- The redistributed spacing of the source, per axis:
`n > 1 ? (usableLength - n*labelLength) / (n - 1) : 0`. -/
def axisSpacing (U L : ℚ) (n : ℕ) : ℚ :=
  if 1 < n then (U - (n : ℚ) * L) / ((n : ℚ) - 1) else 0

/-- `horizontalSpacing` of the source:
`maxLabelsPerRow > 1 ? (usableWidthCm - maxLabelsPerRow*width) / (maxLabelsPerRow - 1) : 0`. -/
def horizontalSpacing (labelWidth : ℚ) (maxLabelsPerRow : ℕ) : ℚ :=
  axisSpacing usableWidthCm labelWidth maxLabelsPerRow

/-- `verticalSpacing` of the source, analogous for the height axis. -/
def verticalSpacing (labelHeight : ℚ) (maxLabelsPerCol : ℕ) : ℚ :=
  axisSpacing usableHeightCm labelHeight maxLabelsPerCol

/-- A capacity result greater than 1 came from the search loop, hence its
total width with minimum spacing fits in the usable length. -/
lemma capacityAlongAxis_fits (U L s : ℚ) (cap : ℕ) (h : 1 < capacityAlongAxis U L s cap) :
    (capacityAlongAxis U L s cap : ℚ) * L + ((capacityAlongAxis U L s cap : ℚ) - 1) * s ≤ U := by
  by_cases hUL : U ≤ L
  · rw [capacityAlongAxis, if_pos hUL] at h
    omega
  · rw [capacityAlongAxis, if_neg hUL] at h ⊢
    rcases capSearchGo_fits U L s (cap - 1) 1 with heq | hfit
    · omega
    · exact hfit

/-- `Math.ceil(count / maxPerPage)` on nonnegative integers, the source's
`totalPages`, as ceiling division on naturals. -/
def totalPages (count maxPerPage : ℕ) : ℕ :=
  (count + maxPerPage - 1) / maxPerPage

/-- One entry of the source's `pages` array: start index, half-open end index,
label count and last-page flag for the sheet at `pageIndex`. -/
structure PageSlice where
  pageIndex : ℕ
  startIndex : ℕ
  endIndex : ℕ
  labelsOnThisPage : ℕ
  isLastPage : Bool
  deriving DecidableEq, Repr

/-- The page record pushed by the source loop body for a given `pageIndex`:
`startIndex = pageIndex * maxPerPage`, `endIndex = min(startIndex + maxPerPage, count)`,
`labelsOnThisPage = endIndex - startIndex`, `isLastPage = (pageIndex === totalPages - 1)`. -/
def mkPage (count maxPerPage pageIndex : ℕ) : PageSlice :=
  { pageIndex := pageIndex
    startIndex := pageIndex * maxPerPage
    endIndex := min (pageIndex * maxPerPage + maxPerPage) count
    labelsOnThisPage := min (pageIndex * maxPerPage + maxPerPage) count - pageIndex * maxPerPage
    isLastPage := pageIndex == totalPages count maxPerPage - 1 }

/-- The source's `pages` array: one record per `pageIndex` in
`[0, totalPages)`, keeping only pages with `labelsOnThisPage > 0`. -/
def pages (count maxPerPage : ℕ) : List PageSlice :=
  ((List.range (totalPages count maxPerPage)).map (mkPage count maxPerPage)).filter
    (fun p => decide (0 < p.labelsOnThisPage))

/-- `actualCols` of the source: `Math.min(maxLabelsPerRow, labelsOnThisPage)`. -/
def actualCols (maxLabelsPerRow labelsOnThisPage : ℕ) : ℕ :=
  min maxLabelsPerRow labelsOnThisPage

/-- `actualRows` of the source: `Math.ceil(labelsOnThisPage / actualCols)`,
as ceiling division on naturals. -/
def actualRows (maxLabelsPerRow labelsOnThisPage : ℕ) : ℕ :=
  (labelsOnThisPage + actualCols maxLabelsPerRow labelsOnThisPage - 1) /
    actualCols maxLabelsPerRow labelsOnThisPage

lemma mul_lt_of_lt_totalPages (count cap i : ℕ) (h1 : 1 ≤ count)
    (hi : i < totalPages count cap) : i * cap < count := by
  rcases Nat.eq_zero_or_pos cap with hc | hc
  · subst hc
    rw [totalPages] at hi
    omega
  · rw [totalPages] at hi
    have h2 : (i + 1) * cap ≤ count + cap - 1 := (Nat.le_div_iff_mul_le hc).mp hi
    rw [Nat.succ_mul] at h2
    set m := i * cap with hm
    omega

lemma count_le_totalPages_mul (count cap : ℕ) (hc : 1 ≤ cap) :
    count ≤ totalPages count cap * cap := by
  by_contra h
  push_neg at h
  have h2 : (totalPages count cap + 1) * cap ≤ count + cap - 1 := by
    rw [Nat.succ_mul]
    set m := totalPages count cap * cap with hm
    omega
  have h3 : totalPages count cap + 1 ≤ (count + cap - 1) / cap :=
    (Nat.le_div_iff_mul_le hc).mpr h2
  rw [totalPages] at h3
  omega

/-- With a positive repeat count every generated page is non-empty, so the
source's filter keeps the whole range. -/
lemma pages_eq_map (count cap : ℕ) (h1 : 1 ≤ count) :
    pages count cap = (List.range (totalPages count cap)).map (mkPage count cap) := by
  rw [pages]
  apply List.filter_eq_self.mpr
  intro p hp
  rw [List.mem_map] at hp
  obtain ⟨i, hi, rfl⟩ := hp
  rw [List.mem_range] at hi
  have := mul_lt_of_lt_totalPages count cap i h1 hi
  rcases Nat.eq_zero_or_pos cap with hc | hc
  · subst hc
    rw [totalPages, Nat.div_zero] at hi
    omega
  · have hlt : i * cap < min (i * cap + cap) count := lt_min_iff.mpr ⟨by omega, this⟩
    simp only [mkPage, decide_eq_true_eq]
    omega

lemma pages_length (count cap : ℕ) (h1 : 1 ≤ count) :
    (pages count cap).length = totalPages count cap := by
  rw [pages_eq_map count cap h1, List.length_map, List.length_range]

lemma pages_sum_aux (count cap : ℕ) (h1 : 1 ≤ count) :
    ∀ t, t ≤ totalPages count cap →
      (((List.range t).map (mkPage count cap)).map
          (fun p => p.labelsOnThisPage)).sum = min (t * cap) count := by
  intro t
  induction t with
  | zero => intro _; simp
  | succ n ih =>
    intro ht
    have hn : n < totalPages count cap := by omega
    have hmul := mul_lt_of_lt_totalPages count cap n h1 hn
    rw [List.range_succ, List.map_append, List.map_append, List.sum_append,
      ih (by omega)]
    simp only [mkPage, List.map_cons, List.map_nil, List.sum_cons, List.sum_nil]
    rw [Nat.succ_mul]
    set m := n * cap with hm
    omega

/-- The label counts of the emitted sheets sum to the repeat count. -/
lemma pages_sum (count cap : ℕ) (h1 : 1 ≤ count) (hc : 1 ≤ cap) :
    ((pages count cap).map (fun p => p.labelsOnThisPage)).sum = count := by
  rw [pages_eq_map count cap h1,
    pages_sum_aux count cap h1 (totalPages count cap) (le_refl _)]
  have := count_le_totalPages_mul count cap hc
  omega

/-- Membership in `pages` comes from a page index below `totalPages`. -/
lemma mem_pages_iff (count cap : ℕ) (h1 : 1 ≤ count) (p : PageSlice) :
    p ∈ pages count cap ↔ ∃ i < totalPages count cap, p = mkPage count cap i := by
  rw [pages_eq_map count cap h1, List.mem_map]
  constructor
  · rintro ⟨i, hi, rfl⟩
    exact ⟨i, List.mem_range.mp hi, rfl⟩
  · rintro ⟨i, hi, rfl⟩
    exact ⟨i, List.mem_range.mpr hi, rfl⟩

/-- Every sheet whose `isLastPage` flag is false carries exactly the full
per-sheet capacity. -/
lemma pages_full_of_not_last (count cap : ℕ) (h1 : 1 ≤ count) (p : PageSlice)
    (hp : p ∈ pages count cap) (hl : p.isLastPage = false) :
    p.labelsOnThisPage = cap := by
  obtain ⟨i, hi, rfl⟩ := (mem_pages_iff count cap h1 p).mp hp
  simp only [mkPage, beq_eq_false_iff_ne, ne_eq] at hl ⊢
  have hne : i ≠ totalPages count cap - 1 := hl
  have hi1 : i + 1 < totalPages count cap := by omega
  have := mul_lt_of_lt_totalPages count cap (i + 1) h1 hi1
  rw [Nat.succ_mul] at this
  set m := i * cap with hm
  omega

/-- The four navigation actions of the keyboard handler and the Prev/Next
buttons: arrow back, arrow forward, Home, End. -/
inductive NavKey
  | prev
  | next
  | home
  | toEnd
  deriving DecidableEq, Repr

/-- The navigation update of the source: the keyboard handler returns early
when `totalPages <= 1`; otherwise `prev` is `Math.max(1, currentPage - 1)`,
`next` is `Math.min(totalPages, currentPage + 1)`, Home jumps to 1 and End
jumps to `totalPages`. -/
def navigate (tp cp : ℕ) (k : NavKey) : ℕ :=
  if tp ≤ 1 then cp
  else
    match k with
    | NavKey.prev => max 1 (cp - 1)
    | NavKey.next => min tp (cp + 1)
    | NavKey.home => 1
    | NavKey.toEnd => tp

/-- The state of the print page that the layout depends on: repeat count,
label dimensions in cm, and the 1-indexed carousel page. -/
structure PrintState where
  count : ℕ
  labelWidth : ℚ
  labelHeight : ℚ
  currentPage : ℕ
  deriving DecidableEq

/-- Total pages as computed by the preview and the keyboard handler
(capacity from the cap-10 row search and the cap-20 column search). -/
def previewTotalPages (st : PrintState) : ℕ :=
  totalPages st.count
    (calculateMaxLabelsPerRowPreview st.labelWidth * calculateMaxLabelsPerCol st.labelHeight)

/-- Input events of the print page: the repeat-count field, the width and
height fields, and a navigation key. -/
inductive PrintEvent
  | setCount (v : ℕ)
  | setWidth (v : ℚ)
  | setHeight (v : ℚ)
  | key (k : NavKey)

/-- The state transition of the source.  `setCount` applies
`Math.max(1, value)` and the `[count]` effect resets `currentPage` to 1 when
the stored count actually changes; `setWidth`/`setHeight` clamp the value
into `[1, 20]` and rescale the other dimension by the aspect ratio, and no
effect resets `currentPage`; a navigation key applies `navigate` with the
preview total-page count. -/
def step (st : PrintState) : PrintEvent → PrintState
  | PrintEvent.setCount v =>
    let c := max 1 v
    { st with count := c, currentPage := if c ≠ st.count then 1 else st.currentPage }
  | PrintEvent.setWidth v =>
    let w := max 1 (min 20 v)
    { st with labelWidth := w, labelHeight := w * (st.labelHeight / st.labelWidth) }
  | PrintEvent.setHeight v =>
    let h := max 1 (min 20 v)
    { st with labelWidth := h * (st.labelWidth / st.labelHeight), labelHeight := h }
  | PrintEvent.key k =>
    { st with currentPage := navigate (previewTotalPages st) st.currentPage k }

/-- `getNumberParam` of the source: `parseFloat` the query parameter and
keep the fallback exactly when the parse is `NaN` (absent or non-numeric);
`none` models an absent or unparseable parameter, `some x` a finite parse. -/
def getNumberParam (v : Option ℚ) (fallback : ℚ) : ℚ :=
  match v with
  | none => fallback
  | some x => x

/-- The label dimensions the print page always loads from the URL:
`getNumberParam(sp, "labelWidth", 6)` and `getNumberParam(sp, "labelHeight", 4)`. -/
def labelDimensionsFromParams (w h : Option ℚ) : ℚ × ℚ :=
  (getNumberParam w 6, getNumberParam h 4)

/-- The repeat-count input handler: `Math.max(1, Number(value))` for a
finite numeric value. -/
def setCountInput (v : ℚ) : ℚ := max 1 v

/-- The dimension input handlers:
`Math.max(1, Math.min(20, parseFloat(value) || 1))`; `none` models a `NaN`
parse, and a parse of `0` also falls back to 1 via `|| 1`. -/
def dimensionInput (v : Option ℚ) : ℚ :=
  max 1 (min 20 (match v with
    | none => 1
    | some x => if x = 0 then 1 else x))

/-- The grid geometry a render pass computes: per-row and per-column counts
together with the redistributed physical spacings in cm. -/
structure GridGeometry where
  perRow : ℕ
  perCol : ℕ
  hSpacing : ℚ
  vSpacing : ℚ
  deriving DecidableEq

/-- The geometry computed by the on-screen preview (cap-10 row search). -/
def previewGeometry (w h : ℚ) : GridGeometry :=
  { perRow := calculateMaxLabelsPerRowPreview w
    perCol := calculateMaxLabelsPerCol h
    hSpacing := horizontalSpacing w (calculateMaxLabelsPerRowPreview w)
    vSpacing := verticalSpacing h (calculateMaxLabelsPerCol h) }

/-- The geometry computed by the print layout (cap-50 row search). -/
def printGeometry (w h : ℚ) : GridGeometry :=
  { perRow := calculateMaxLabelsPerRow w
    perCol := calculateMaxLabelsPerCol h
    hSpacing := horizontalSpacing w (calculateMaxLabelsPerRow w)
    vSpacing := verticalSpacing h (calculateMaxLabelsPerCol h) }

/-- C1 (amended): the preview (cap-10 row search) and the print layout
(cap-50 row search) compute identical grid geometry — per-row and per-column
counts and both physical spacings — whenever the print layout fits at most
10 labels per row; for smaller widths the two row caps differ. -/
theorem preview_geometry_eq_print (w h : ℚ) (hten : calculateMaxLabelsPerRow w ≤ 10) :
    previewGeometry w h = printGeometry w h := by
  have hrow : calculateMaxLabelsPerRowPreview w = calculateMaxLabelsPerRow w := by
    by_cases hw : 0 < w
    · rw [calculateMaxLabelsPerRow,
        capacityAlongAxis_eq_closedForm _ _ _ _ usableWidthCm_pos hw minSpacing_nonneg
          (by norm_num)] at hten
      rw [calculateMaxLabelsPerRowPreview, calculateMaxLabelsPerRow,
        capacityAlongAxis_eq_closedForm _ _ _ _ usableWidthCm_pos hw minSpacing_nonneg
          (by norm_num),
        capacityAlongAxis_eq_closedForm _ _ _ _ usableWidthCm_pos hw minSpacing_nonneg
          (by norm_num)]
      omega
    · push_neg at hw
      rw [calculateMaxLabelsPerRow_of_nonpos w hw] at hten
      omega
  rw [previewGeometry, printGeometry, hrow]

/-- C1 witness: at the default 6 cm x 4 cm label the hypothesis holds and
preview and print geometry coincide. -/
theorem preview_geometry_eq_print_witness :
    calculateMaxLabelsPerRow 6 ≤ 10 ∧ previewGeometry 6 4 = printGeometry 6 4 :=
  ⟨by simp [row_six], preview_geometry_eq_print 6 4 (by simp [row_six])⟩

/-- C1 counterexample: at label width 1 cm the preview fits 10 labels per row
(cap 10) while the print layout fits 15, so the two geometries differ. -/
theorem preview_geometry_ne_print_at_width_one :
    (previewGeometry 1 4).perRow = 10 ∧
    (printGeometry 1 4).perRow = 15 ∧
    previewGeometry 1 4 ≠ printGeometry 1 4 := by
  have h1 : (previewGeometry 1 4).perRow = 10 := rowPreview_one
  have h2 : (printGeometry 1 4).perRow = 15 := row_one
  refine ⟨h1, h2, fun hEq => ?_⟩
  rw [hEq, h2] at h1
  exact absurd h1 (by decide)

/-- C2 (amended): the bounded upward search equals the spec's closed form
clamped to the loop cap (not the unclamped closed form), for all positive
usable length, positive label length, nonnegative minimum spacing and cap at
least 1; an oversized label always gives capacity 1. -/
theorem capacity_search_eq_clamped_closedForm (U L s : ℚ) (cap : ℕ)
    (hU : 0 < U) (hL : 0 < L) (hs : 0 ≤ s) (hcap : 1 ≤ cap) :
    capacityAlongAxis U L s cap = min (closedForm U L s) cap ∧
    (U ≤ L → capacityAlongAxis U L s cap = 1) := by
  refine ⟨capacityAlongAxis_eq_closedForm U L s cap hU hL hs hcap, fun hUL => ?_⟩
  rw [capacityAlongAxis, if_pos hUL]

/-- C2 witness: at usable width 16.8, label width 6, spacing 0.1, cap 50 the
hypotheses hold and the search agrees with the clamped closed form. -/
theorem capacity_search_eq_clamped_closedForm_witness :
    (0 : ℚ) < usableWidthCm ∧ (0 : ℚ) < 6 ∧ (0 : ℚ) ≤ minSpacing ∧ (1 : ℕ) ≤ 50 ∧
    (capacityAlongAxis usableWidthCm 6 minSpacing 50 =
        min (closedForm usableWidthCm 6 minSpacing) 50 ∧
      (usableWidthCm ≤ 6 → capacityAlongAxis usableWidthCm 6 minSpacing 50 = 1)) :=
  ⟨usableWidthCm_pos, by norm_num, minSpacing_nonneg, by norm_num,
    capacity_search_eq_clamped_closedForm usableWidthCm 6 minSpacing 50 usableWidthCm_pos
      (by norm_num) minSpacing_nonneg (by norm_num)⟩

/-- C2 counterexample: at label height 1 cm the cap-20 column search returns
20 but the unclamped closed form is 21, so the search is not equivalent to
the closed form on all valid inputs. -/
theorem capacity_search_ne_closedForm :
    calculateMaxLabelsPerCol 1 = 20 ∧
    closedForm usableHeightCm 1 minSpacing = 21 ∧
    calculateMaxLabelsPerCol 1 ≠ closedForm usableHeightCm 1 minSpacing := by
  refine ⟨col_one, closedForm_height_one, ?_⟩
  rw [col_one, closedForm_height_one]
  omega

/-- C3: for the per-axis count n returned by the capacity search, if n > 1
the spacing is `(usableLength - n*labelLength)/(n-1)`, is at least the
minimum spacing, and consumes the usable length exactly; if n = 1 the
spacing is 0; concretely `usable 16.8, label 6, minSpacing 0.1` gives n = 2
with spacing 4.8. -/
theorem spacing_redistribution (U L s : ℚ) (cap : ℕ) :
    (1 < capacityAlongAxis U L s cap →
      axisSpacing U L (capacityAlongAxis U L s cap) =
        (U - (capacityAlongAxis U L s cap : ℚ) * L) /
          ((capacityAlongAxis U L s cap : ℚ) - 1) ∧
      s ≤ axisSpacing U L (capacityAlongAxis U L s cap) ∧
      (capacityAlongAxis U L s cap : ℚ) * L +
          ((capacityAlongAxis U L s cap : ℚ) - 1) *
            axisSpacing U L (capacityAlongAxis U L s cap) = U) ∧
    (capacityAlongAxis U L s cap = 1 →
      axisSpacing U L (capacityAlongAxis U L s cap) = 0) ∧
    calculateMaxLabelsPerRow 6 = 2 ∧
    horizontalSpacing 6 2 = 24 / 5 := by
  refine ⟨?_, ?_, row_six, ?_⟩
  · intro h
    have hfit := capacityAlongAxis_fits U L s cap h
    have hn2 : (2 : ℚ) ≤ (capacityAlongAxis U L s cap : ℚ) := by exact_mod_cast h
    have hpos : (0 : ℚ) < (capacityAlongAxis U L s cap : ℚ) - 1 := by linarith
    have hsp : axisSpacing U L (capacityAlongAxis U L s cap) =
        (U - (capacityAlongAxis U L s cap : ℚ) * L) /
          ((capacityAlongAxis U L s cap : ℚ) - 1) := by
      rw [axisSpacing, if_pos h]
    refine ⟨hsp, ?_, ?_⟩
    · rw [hsp, le_div_iff₀ hpos]
      nlinarith [hfit]
    · rw [hsp]
      field_simp
  · intro h
    rw [h]
    rfl
  · rw [horizontalSpacing, axisSpacing, if_pos (by norm_num)]
    rw [usableWidthCm]
    norm_num

/-- C3 witness: at usable width 16.8, label width 6, minSpacing 0.1, cap 50
the count is 2 > 1 and the redistributed spacing is at least the minimum. -/
theorem spacing_redistribution_witness :
    1 < capacityAlongAxis usableWidthCm 6 minSpacing 50 ∧
    minSpacing ≤ axisSpacing usableWidthCm 6 (capacityAlongAxis usableWidthCm 6 minSpacing 50) := by
  have h2 : capacityAlongAxis usableWidthCm 6 minSpacing 50 = 2 := row_six
  exact ⟨by rw [h2]; omega,
    ((spacing_redistribution usableWidthCm 6 minSpacing 50).1 (by rw [h2]; omega)).2.1⟩

/-- C4: for positive repeat count and capacity the emitted sheets number
`ceil(count/cap)`, carry the half-open ranges
`[pageIndex*cap, min(pageIndex*cap + cap, count))`, their label counts sum to
the repeat count, and every non-last sheet carries exactly the capacity. -/
theorem pagination_partition (count cap : ℕ) (h1 : 1 ≤ count) (hc : 1 ≤ cap) :
    (pages count cap).length = totalPages count cap ∧
    ((pages count cap).map (fun p => p.labelsOnThisPage)).sum = count ∧
    (∀ p ∈ pages count cap,
      p.startIndex = p.pageIndex * cap ∧
      p.endIndex = min (p.startIndex + cap) count ∧
      p.labelsOnThisPage = p.endIndex - p.startIndex) ∧
    (∀ p ∈ pages count cap, p.isLastPage = false → p.labelsOnThisPage = cap) := by
  refine ⟨pages_length count cap h1, pages_sum count cap h1 hc, ?_,
    fun p hp hl => pages_full_of_not_last count cap h1 p hp hl⟩
  intro p hp
  obtain ⟨i, hi, rfl⟩ := (mem_pages_iff count cap h1 p).mp hp
  exact ⟨rfl, rfl, rfl⟩

/-- C4 witness: 20 labels at capacity 18 per sheet. -/
theorem pagination_partition_witness :
    (pages 20 18).length = totalPages 20 18 ∧
    ((pages 20 18).map (fun p => p.labelsOnThisPage)).sum = 20 ∧
    (∀ p ∈ pages 20 18,
      p.startIndex = p.pageIndex * 18 ∧
      p.endIndex = min (p.startIndex + 18) 20 ∧
      p.labelsOnThisPage = p.endIndex - p.startIndex) ∧
    (∀ p ∈ pages 20 18, p.isLastPage = false → p.labelsOnThisPage = 18) :=
  pagination_partition 20 18 (by decide) (by decide)

/-- C5: the emitted sheet sequence never contains a sheet with zero labels,
for any repeat count (including 0, which yields no sheets at all). -/
theorem pages_never_empty (count cap : ℕ) :
    (∀ p ∈ pages count cap, 0 < p.labelsOnThisPage) ∧ pages 0 cap = [] := by
  constructor
  · intro p hp
    rw [pages, List.mem_filter] at hp
    exact of_decide_eq_true hp.2
  · rw [pages]
    have h0 : totalPages 0 cap = 0 := by
      rw [totalPages]
      rcases Nat.eq_zero_or_pos cap with hc | hc
      · subst hc; rfl
      · exact Nat.div_eq_of_lt (by omega)
    rw [h0]
    rfl

/-- C5 witness: the first sheet of 20 labels at capacity 18 is a member of
the sequence and non-empty. -/
theorem pages_never_empty_witness :
    mkPage 20 18 0 ∈ pages 20 18 ∧ 0 < (mkPage 20 18 0).labelsOnThisPage :=
  ⟨by decide, (pages_never_empty 20 18).1 (mkPage 20 18 0) (by decide)⟩

/-- C6: each sheet is rendered with `columns = min(perRow, labelsOnThisPage)`
and `rows = ceil(labelsOnThisPage / columns)`; with 20 labels at capacity 18
and perRow 3 there are 2 sheets, the first with 18 labels in 3 columns and
6 rows, the last with 2 labels reflowed to 2 columns and 1 row. -/
theorem last_sheet_reflow :
    (∀ perRow labels : ℕ,
      actualCols perRow labels = min perRow labels ∧
      actualRows perRow labels = (labels + min perRow labels - 1) / min perRow labels) ∧
    pages 20 18 = [mkPage 20 18 0, mkPage 20 18 1] ∧
    (mkPage 20 18 0).labelsOnThisPage = 18 ∧
    actualCols 3 18 = 3 ∧ actualRows 3 18 = 6 ∧
    (mkPage 20 18 1).labelsOnThisPage = 2 ∧
    actualCols 3 2 = 2 ∧ actualRows 3 2 = 1 :=
  ⟨fun _ _ => ⟨rfl, rfl⟩, by decide, by decide, by decide, by decide, by decide,
    by decide, by decide⟩

/-- C7: all four navigation actions are saturating — `next` is
`min(currentPage+1, totalPages)`, `prev` is `max(currentPage-1, 1)`, Home is
1, End is totalPages — the result never leaves `[1, totalPages]`, and every
action is a no-op when `totalPages <= 1`. -/
theorem navigation_saturates (tp cp : ℕ) (h1 : 1 ≤ cp) (h2 : cp ≤ tp) :
    navigate tp cp NavKey.next = min (cp + 1) tp ∧
    navigate tp cp NavKey.prev = max (cp - 1) 1 ∧
    navigate tp cp NavKey.home = 1 ∧
    navigate tp cp NavKey.toEnd = tp ∧
    (∀ k, 1 ≤ navigate tp cp k ∧ navigate tp cp k ≤ tp) ∧
    (tp ≤ 1 → ∀ k, navigate tp cp k = cp) := by
  by_cases htp : tp ≤ 1
  · have hnav : ∀ k, navigate tp cp k = cp := fun k => by
      simp only [navigate]
      rw [if_pos htp]
    refine ⟨?_, ?_, ?_, ?_, fun k => ?_, fun _ k => hnav k⟩ <;> rw [hnav] <;> omega
  · refine ⟨?_, ?_, ?_, ?_, fun k => ?_, fun h => absurd h htp⟩
    · simp only [navigate, if_neg htp]
      omega
    · simp only [navigate, if_neg htp]
      omega
    · simp only [navigate, if_neg htp]
    · simp only [navigate, if_neg htp]
    · cases k <;> simp only [navigate, if_neg htp] <;> constructor <;> omega

/-- C7 witness: totalPages 3, currentPage 2. -/
theorem navigation_saturates_witness :
    navigate 3 2 NavKey.next = min (2 + 1) 3 ∧
    navigate 3 2 NavKey.prev = max (2 - 1) 1 ∧
    navigate 3 2 NavKey.home = 1 ∧
    navigate 3 2 NavKey.toEnd = 3 ∧
    (∀ k, 1 ≤ navigate 3 2 k ∧ navigate 3 2 k ≤ 3) ∧
    (3 ≤ 1 → ∀ k, navigate 3 2 k = 2) :=
  navigation_saturates 3 2 (by decide) (by decide)

/-- C8 (code bug): navigating to page 4 of a 40-label layout with a 6 cm x
4 cm label (4 pages of 10), then setting the width to 4 cm (which rescales
the height to 8/3 cm and raises the capacity to 32, so only 2 pages exist),
leaves `currentPage` at 4: the source resets the cursor on repeat-count
changes only, so after the size change `currentPage` exceeds `totalPages`,
contradicting the spec's reset-on-label-size-change requirement. -/
theorem currentPage_not_reset_on_size_change :
    (step (step ⟨40, 6, 4, 1⟩ (PrintEvent.key NavKey.toEnd))
        (PrintEvent.setWidth 4)).currentPage = 4 ∧
    previewTotalPages (step (step ⟨40, 6, 4, 1⟩ (PrintEvent.key NavKey.toEnd))
        (PrintEvent.setWidth 4)) = 2 ∧
    ¬ ((step (step ⟨40, 6, 4, 1⟩ (PrintEvent.key NavKey.toEnd))
        (PrintEvent.setWidth 4)).currentPage ≤
      previewTotalPages (step (step ⟨40, 6, 4, 1⟩ (PrintEvent.key NavKey.toEnd))
        (PrintEvent.setWidth 4))) := by
  have hpt1 : previewTotalPages ⟨40, 6, 4, 1⟩ = 4 := by
    show totalPages 40 (calculateMaxLabelsPerRowPreview 6 * calculateMaxLabelsPerCol 4) = 4
    rw [rowPreview_six, col_four]
    decide
  have hstep1 : step ⟨40, 6, 4, 1⟩ (PrintEvent.key NavKey.toEnd) = ⟨40, 6, 4, 4⟩ := by
    show (⟨40, 6, 4, navigate (previewTotalPages ⟨40, 6, 4, 1⟩) 1 NavKey.toEnd⟩ : PrintState) =
      ⟨40, 6, 4, 4⟩
    rw [hpt1]
    rfl
  have hstep2 : step (⟨40, 6, 4, 4⟩ : PrintState) (PrintEvent.setWidth 4) =
      ⟨40, 4, 8 / 3, 4⟩ := by
    show (⟨40, max 1 (min 20 4), max 1 (min 20 4) * ((4 : ℚ) / 6), 4⟩ : PrintState) =
      ⟨40, 4, 8 / 3, 4⟩
    congr 1 <;> norm_num
  rw [hstep1, hstep2]
  have hpt2 : previewTotalPages ⟨40, 4, 8 / 3, 4⟩ = 2 := by
    show totalPages 40 (calculateMaxLabelsPerRowPreview 4 * calculateMaxLabelsPerCol (8 / 3)) = 2
    rw [rowPreview_four, col_eight_thirds]
    decide
  rw [hpt2]
  exact ⟨rfl, rfl, by decide⟩

/-- C9 (amended): the interactive inputs are normalized before the core —
the repeat count is clamped to at least 1, the dimension fields are clamped
into [1, 20] with NaN and 0 falling back to 1, and a missing or unparseable
URL parameter yields its fallback — but see the counterexample: a finite
non-positive URL label dimension is passed through unclamped. -/
theorem inputs_normalized :
    (∀ v : ℚ, 1 ≤ setCountInput v) ∧
    (∀ v : Option ℚ, 1 ≤ dimensionInput v ∧ dimensionInput v ≤ 20) ∧
    (∀ fb : ℚ, getNumberParam none fb = fb) := by
  refine ⟨fun v => le_max_left 1 v,
    fun v => ⟨le_max_left _ _, max_le (by norm_num) (min_le_left _ _)⟩,
    fun fb => rfl⟩

/-- C9 counterexample: the URL parameter path only guards against an
unparseable value, so `labelWidth=-5` reaches the layout core as the
non-positive width -5. -/
theorem url_param_not_clamped :
    (labelDimensionsFromParams (some (-5)) none).1 = -5 ∧
    ¬ (0 < (labelDimensionsFromParams (some (-5)) none).1) := by
  refine ⟨rfl, ?_⟩
  show ¬ ((0 : ℚ) < -5)
  norm_num

/-- C10: for every rational label width and height — negative, zero or
oversized included — both capacity searches return at least 1, hence the
per-sheet capacity product is at least 1 and non-zero (so the total-page
division is never by zero), and the spacing expressions are 0 whenever the
count is not greater than 1 (no division by n-1). -/
theorem capacity_always_at_least_one (w h : ℚ) :
    1 ≤ calculateMaxLabelsPerRow w ∧
    1 ≤ calculateMaxLabelsPerRowPreview w ∧
    1 ≤ calculateMaxLabelsPerCol h ∧
    1 ≤ calculateMaxLabelsPerRow w * calculateMaxLabelsPerCol h ∧
    0 < calculateMaxLabelsPerRow w * calculateMaxLabelsPerCol h ∧
    horizontalSpacing w 1 = 0 ∧ horizontalSpacing w 0 = 0 ∧
    verticalSpacing h 1 = 0 ∧ verticalSpacing h 0 = 0 := by
  have hr : 1 ≤ calculateMaxLabelsPerRow w :=
    one_le_capacityAlongAxis usableWidthCm w minSpacing 50
  have hrp : 1 ≤ calculateMaxLabelsPerRowPreview w :=
    one_le_capacityAlongAxis usableWidthCm w minSpacing 10
  have hcc : 1 ≤ calculateMaxLabelsPerCol h :=
    one_le_capacityAlongAxis usableHeightCm h minSpacing 20
  have hprod : 1 ≤ calculateMaxLabelsPerRow w * calculateMaxLabelsPerCol h :=
    Nat.one_le_iff_ne_zero.mpr (Nat.mul_ne_zero (by omega) (by omega))
  exact ⟨hr, hrp, hcc, hprod, by omega, rfl, rfl, rfl, rfl⟩

end LabelMaker
